import Mathlib

/-!
# Verification of `lambda-function/lambda_function.py`

A shallow embedding of the upload-metadata Lambda handler.  Pure helpers
(`format_bytes`, `is_image`, `os.path.basename`, `os.path.splitext`) are
translated to computable Lean functions.  The AWS S3 client is modelled as an
injected environment of fallible operations (`Except String`), the per-record
metadata dictionary as an ordered association list (Python dicts preserve
insertion order), and the handler's storage side effects as an explicit trace.

Python's float arithmetic in `format_bytes` only ever divides by 1024, which is
exact in binary floating point for the sizes of interest; the value is embedded
exactly as a numerator over a power-of-1024 denominator.
-/

/-- JSON scalar values that appear in the metadata record: strings and
non-negative integers (object sizes and image dimensions). -/
inductive J where
  | str : String → J
  | num : Nat → J
deriving DecidableEq, Repr

/-- Lower-case hexadecimal digit, `n < 16`. -/
def hexDigit (n : Nat) : Char :=
  if n < 10 then Char.ofNat (48 + n) else Char.ofNat (87 + n)

/-- Four lower-case hex digits, as in Python's `\uXXXX` escapes. -/
def hex4 (n : Nat) : String :=
  String.mk [hexDigit (n / 4096 % 16), hexDigit (n / 256 % 16),
             hexDigit (n / 16 % 16), hexDigit (n % 16)]

/-- Escape of a single character as done by `json.dumps` with the default
`ensure_ascii=True`: printable ASCII other than quote and backslash is kept,
the usual short escapes are used, everything else becomes `\uXXXX`
(surrogate pairs above the BMP). -/
def jescapeChar (c : Char) : String :=
  if c = Char.ofNat 34 then "\\\""
  else if c = Char.ofNat 92 then "\\\\"
  else if 32 ≤ c.toNat ∧ c.toNat ≤ 126 then String.singleton c
  else if c.toNat = 8 then "\\b"
  else if c.toNat = 9 then "\\t"
  else if c.toNat = 10 then "\\n"
  else if c.toNat = 12 then "\\f"
  else if c.toNat = 13 then "\\r"
  else if c.toNat < 65536 then "\\u" ++ hex4 c.toNat
  else "\\u" ++ hex4 (55296 + (c.toNat - 65536) / 1024) ++
       "\\u" ++ hex4 (56320 + (c.toNat - 65536) % 1024)

/-- A JSON string literal: `"`...escaped...`"`. -/
def jstring (s : String) : String :=
  "\"" ++ String.join (s.data.map jescapeChar) ++ "\""

/-- Serialization of a scalar value. -/
def dumpJ : J → String
  | J.str s => jstring s
  | J.num n => toString n

/-- `json.dumps` of a flat object with the default separators
`(", ", ": ")`, e.g. `{"a": 1, "b": "x"}`. -/
def dumpObjCompact (fs : List (String × J)) : String :=
  "\x7b" ++ String.intercalate ", "
    (fs.map (fun kv => jstring kv.1 ++ ": " ++ dumpJ kv.2)) ++ "\x7d"

/-- `json.dumps` of a flat object with `indent=2`: each member on its own
line, indented two spaces, item separator `","` plus newline. -/
def dumpIndent2 (fs : List (String × J)) : String :=
  match fs with
  | [] => "\x7b\x7d"
  | _ => "\x7b\n" ++ String.intercalate ",\n"
      (fs.map (fun kv => "  " ++ jstring kv.1 ++ ": " ++ dumpJ kv.2)) ++ "\n\x7d"

/-- Zero-padded two-digit rendering of `m < 100` (the cents part of a
`%.2f` format). -/
def pad2 (m : Nat) : String :=
  if m < 100 then
    (if m < 10 then "0" ++ toString m else toString m)
  else toString m

/-- The number of hundredths displayed by Python's `f"{v:.2f}"` for the exact
non-negative rational `n / d` (`d > 0`): `100 * n / d` rounded half-to-even,
which is what IEEE-754 formatting performs on the exactly-represented values
produced by `format_bytes` (only divisions by 1024 occur). -/
def cents2 (n d : Nat) : Nat :=
  let x := 100 * n
  let q := x / d
  let r := x % d
  if 2 * r < d then q
  else if d < 2 * r then q + 1
  else if q % 2 = 0 then q else q + 1

/-- Python's `f"{v:.2f}"` on the exact non-negative rational `n / d`. -/
def fmtFixed2 (n d : Nat) : String :=
  toString (cents2 n d / 100) ++ "." ++ pad2 (cents2 n d % 100)

/-- The unit list walked by the `for` loop of `format_bytes`. -/
def byteUnits : List String := ["B", "KB", "MB", "GB", "TB"]

/-- The loop of `format_bytes`: the running value is the exact rational
`n / d`; `size /= 1024.0` multiplies the denominator by 1024.  Returns the
unit at which the loop stops together with the value to be formatted. -/
def formatBytesLoop : Nat → Nat → List String → String × Nat × Nat
  | n, d, [] => ("PB", n, d)
  | n, d, u :: us => if n < 1024 * d then (u, n, d) else formatBytesLoop n (1024 * d) us

/-- `format_bytes(size)`: convert a byte count to a human-readable string. -/
def format_bytes (size : Nat) : String :=
  let t := formatBytesLoop size 1 byteUnits
  fmtFixed2 t.2.1 t.2.2 ++ " " ++ t.1

/-- ASCII lower-casing, as `str.lower()` acts on the ASCII keys in play. -/
def strLower (s : String) : String := String.mk (s.data.map Char.toLower)

/-- `str.endswith`, decided on the underlying character lists. -/
def strEndsWith (s t : String) : Bool := t.data.isSuffixOf s.data

/-- The extension whitelist of `is_image`. -/
def image_extensions : List String := [".jpg", ".jpeg", ".png", ".gif", ".bmp", ".webp"]

/-- `is_image(filename)`: extension check on the lower-cased name. -/
def is_image (filename : String) : Bool :=
  image_extensions.any (fun ext => strEndsWith (strLower filename) ext)

/-- `os.path.basename` for POSIX paths: everything after the last `/`. -/
def basename (p : String) : String :=
  String.mk (p.data.foldl (fun acc c => if c = '/' then [] else acc ++ [c]) [])

/-- Index of the last occurrence of `c` in `l`, if any. -/
def lastIndexOf (l : List Char) (c : Char) : Option Nat :=
  ((l.enum.filterMap (fun p => if p.2 = c then some p.1 else none))).getLast?

/-- `os.path.splitext(p)[0]`: drop the extension, where the extension starts
at the last dot, provided that dot lies after the last separator and some
non-dot character of the base name precedes it (leading dots of the base name
never start an extension). -/
def splitextRoot (p : String) : String :=
  let l := p.data
  let start := match lastIndexOf l '/' with
    | none => 0
    | some i => i + 1
  match lastIndexOf l '.' with
  | none => p
  | some d =>
    if start ≤ d ∧ ((l.drop start).take (d - start)).any (fun c => c ≠ '.')
    then String.mk (l.take d) else p

/-- One record of the triggering event: `Records[i].s3.bucket.name`,
`.s3.object.key`, `.s3.object.size`. -/
structure Record where
  bucket : String
  key : String
  size : Nat
deriving DecidableEq, Repr

/-- The triggering event (its `Records` list). -/
structure Event where
  records : List Record
deriving DecidableEq, Repr

/-- Result of `head_object`, as the handler reads it: `ContentType` is read
with a default (`.get`), `LastModified` and `ETag` by bare subscription, so
each field is optional in the response and absence of the latter two raises.
`lastModified` stands for the already-ISO-formatted timestamp. -/
structure HeadResponse where
  contentType : Option String
  lastModified : Option String
  etag : Option String
deriving DecidableEq, Repr

/-- The storage side effects an invocation can perform.  Only operations that
actually took place are recorded: a successful `download_file` (which creates
the scratch file), the `os.remove` of that file, and a successful
`put_object`.  `headReq` records the head-metadata read. -/
inductive Effect where
  | headReq (bucket key : String)
  | downloadFile (bucket key path : String)
  | removeFile (path : String)
  | putObject (bucket key body contentType : String)
deriving DecidableEq, Repr

/-- The injected collaborators of one invocation: the S3 client operations
(each may fail with an exception message) and the clock
(`datetime.utcnow().isoformat()`). -/
structure Env where
  head : String → String → Except String HeadResponse
  download : String → String → String → Except String Unit
  probe : String → Except String (Nat × Nat × String × String)
  put : String → String → String → String → Except String Unit
  now : String

/-- The handler's return value: `statusCode` plus the JSON-encoded `body`. -/
structure LambdaResult where
  statusCode : Nat
  body : String
deriving DecidableEq, Repr

/-- The 500 response built in the `except` block. -/
def errorResult (e : String) : LambdaResult :=
  ⟨500, dumpObjCompact [("message", J.str "Error processing file"), ("error", J.str e)]⟩

/-- The 200 body: `json.dumps` of the two-member success object. -/
def successBody (m : List (String × J)) : String :=
  "\x7b\"message\": \"File processed successfully\", \"metadata\": " ++
    dumpObjCompact m ++ "\x7d"

/-- The base metadata dictionary, in insertion order. -/
def baseMetadata (r : Record) (ct : Option String) (lm et now : String) :
    List (String × J) :=
  [("fileName", J.str r.key),
   ("bucketName", J.str r.bucket),
   ("fileSize", J.num r.size),
   ("fileSizeReadable", J.str (format_bytes r.size)),
   ("contentType", J.str (ct.getD "unknown")),
   ("lastModified", J.str lm),
   ("etag", J.str et),
   ("uploadTime", J.str now),
   ("processedBy", J.str "AWS Lambda")]

/-- The image sub-step (the inner `try`): download to `/tmp/<basename>`, open
with PIL, record the four image attributes and remove the scratch file; any
failure is caught and recorded as `imageError`.  Returns the keys appended to
the metadata dictionary and the effects performed.  Note that on a decode
failure the already-downloaded scratch file is not removed, exactly as in the
source (the `os.remove` is skipped by the exception). -/
def imageProbeResult (env : Env) (r : Record) : List (String × J) × List Effect :=
  let path := "/tmp/" ++ basename r.key
  match env.download r.bucket r.key path with
  | Except.error e => ([("imageError", J.str e)], [])
  | Except.ok _ =>
    match env.probe path with
    | Except.error e => ([("imageError", J.str e)], [Effect.downloadFile r.bucket r.key path])
    | Except.ok (w, h, f, mode) =>
      ([("imageWidth", J.num w), ("imageHeight", J.num h),
        ("imageFormat", J.str f), ("imageMode", J.str mode)],
       [Effect.downloadFile r.bucket r.key path, Effect.removeFile path])

/-- The finished metadata record for a record whose head lookup succeeded
with fields `ct` / `lm` / `et`: the base dictionary, extended by the image
sub-step when the key is an image. -/
def finalMetadata (env : Env) (r : Record) (ct : Option String) (lm et : String) :
    List (String × J) :=
  baseMetadata r ct lm et env.now ++
    (if is_image r.key then (imageProbeResult env r).1 else [])

/-- The derived output key `metadata/<root>_metadata.json`. -/
def metadataKey (key : String) : String :=
  "metadata/" ++ splitextRoot key ++ "_metadata.json"

/-- Processing of the (first) record, after event-field extraction.  Missing
`LastModified` / `ETag` raise `KeyError`, whose `str` is the quoted key name,
and are caught by the outer `except`. -/
def processRecord (env : Env) (r : Record) : LambdaResult × List Effect :=
  match env.head r.bucket r.key with
  | Except.error e => (errorResult e, [Effect.headReq r.bucket r.key])
  | Except.ok resp =>
    match resp.lastModified with
    | none => (errorResult "\x27LastModified\x27", [Effect.headReq r.bucket r.key])
    | some lm =>
      match resp.etag with
      | none => (errorResult "\x27ETag\x27", [Effect.headReq r.bucket r.key])
      | some et =>
        let m := finalMetadata env r resp.contentType lm et
        let imgEff := if is_image r.key then (imageProbeResult env r).2 else []
        let body := dumpIndent2 m
        match env.put r.bucket (metadataKey r.key) body "application/json" with
        | Except.error e => (errorResult e, Effect.headReq r.bucket r.key :: imgEff)
        | Except.ok _ =>
          (⟨200, successBody m⟩,
           Effect.headReq r.bucket r.key ::
             (imgEff ++ [Effect.putObject r.bucket (metadataKey r.key) body "application/json"]))

/-- `lambda_handler(event, context)`: reads only `Records[0]`; an empty
`Records` list raises `IndexError("list index out of range")`, caught by the
outer `except`. -/
def lambda_handler (env : Env) (event : Event) : LambdaResult × List Effect :=
  match event.records.head? with
  | none => (errorResult "list index out of range", [])
  | some r => processRecord env r

/-- The observable object-storage state: (bucket, key) to (body, content type). -/
def Store := String × String → Option (String × String)

/-- How one performed effect changes storage (reads and local scratch-file
operations leave it unchanged). -/
def applyEffect (s : Store) : Effect → Store
  | Effect.putObject b k body ct => fun p => if p = (b, k) then some (body, ct) else s p
  | _ => s

/-- Storage after a trace of effects. -/
def applyEffects (s : Store) (es : List Effect) : Store := es.foldl applyEffect s

/-- Recognizer for write effects. -/
def isPutEffect : Effect → Bool
  | Effect.putObject _ _ _ _ => true
  | _ => false

/-- Recognizer for object-download effects. -/
def isDownloadEffect : Effect → Bool
  | Effect.downloadFile _ _ _ => true
  | _ => false

/-- Recognizer for scratch-file deletion effects. -/
def isRemoveEffect : Effect → Bool
  | Effect.removeFile _ => true
  | _ => false

/-- The metadata record with the `uploadTime` value blanked, for comparisons
"identical except `uploadTime`". -/
def maskUploadTime (m : List (String × J)) : List (String × J) :=
  m.map (fun kv => if kv.1 = "uploadTime" then (kv.1, J.str "") else kv)

/-- The four attribute fields recorded on a successful image probe. -/
def imageAttrKeys : List String := ["imageWidth", "imageHeight", "imageFormat", "imageMode"]

/-! ## Theorems -/

theorem formatBytesLoop_dpos (us : List String) (n d : Nat) (hd : 0 < d) :
    0 < (formatBytesLoop n d us).2.2 := by
  induction us generalizing d with
  | nil => simpa [formatBytesLoop] using hd
  | cons u us ih =>
    by_cases h : n < 1024 * d
    · simpa [formatBytesLoop, h] using hd
    · simpa [formatBytesLoop, h] using ih (1024 * d) (by positivity)

theorem formatBytesLoop_unit_mem (us : List String) (n d : Nat) :
    (formatBytesLoop n d us).1 ∈ us ∨ (formatBytesLoop n d us).1 = "PB" := by
  induction us generalizing d with
  | nil => simp [formatBytesLoop]
  | cons u us ih =>
    by_cases h : n < 1024 * d
    · simp [formatBytesLoop, h]
    · simp only [formatBytesLoop, if_neg h]
      rcases ih (1024 * d) with h1 | h1
      · exact Or.inl (List.mem_cons_of_mem _ h1)
      · exact Or.inr h1

theorem formatBytesLoop_lt (us : List String) (n d : Nat) (hus : "PB" ∉ us)
    (h : (formatBytesLoop n d us).1 ≠ "PB") :
    (formatBytesLoop n d us).2.1 < 1024 * (formatBytesLoop n d us).2.2 := by
  induction us generalizing d with
  | nil => simp [formatBytesLoop] at h
  | cons u us ih =>
    by_cases hlt : n < 1024 * d
    · simp [formatBytesLoop, hlt]
    · simp only [formatBytesLoop, if_neg hlt] at h ⊢
      exact ih (1024 * d) (fun hm => hus (List.mem_cons_of_mem _ hm)) h

theorem pad2_length (m : Nat) (hm : m < 100) : (pad2 m).length = 2 := by
  revert hm
  revert m
  decide

/-- C1: for every byte size ≥ 0, `format_bytes` returns `"<value> <unit>"`
with the value formatted to two decimal places, the unit drawn from
B/KB/MB/GB/TB/PB, and the formatted numeric value below 1024 for every unit
except PB; the five example points evaluate as the spec states. -/
theorem C1_format_bytes_spec :
    (∀ size : Nat, ∃ u n d,
      0 < d ∧
      format_bytes size = fmtFixed2 n d ++ " " ++ u ∧
      fmtFixed2 n d = toString (cents2 n d / 100) ++ "." ++ pad2 (cents2 n d % 100) ∧
      (pad2 (cents2 n d % 100)).length = 2 ∧
      u ∈ ["B", "KB", "MB", "GB", "TB", "PB"] ∧
      (u ≠ "PB" → (n : ℚ) / (d : ℚ) < 1024)) ∧
    format_bytes 0 = "0.00 B" ∧
    format_bytes 1023 = "1023.00 B" ∧
    format_bytes 1024 = "1.00 KB" ∧
    format_bytes 1048576 = "1.00 MB" ∧
    format_bytes 1099511627776 = "1.00 TB" := by
  refine ⟨?_, by decide, by decide, by decide, by decide, by decide⟩
  intro size
  refine ⟨(formatBytesLoop size 1 byteUnits).1, (formatBytesLoop size 1 byteUnits).2.1,
    (formatBytesLoop size 1 byteUnits).2.2,
    formatBytesLoop_dpos byteUnits size 1 one_pos, rfl, rfl,
    pad2_length _ (Nat.mod_lt _ (by norm_num)), ?_, ?_⟩
  · rcases formatBytesLoop_unit_mem byteUnits size 1 with h | h
    · simp only [byteUnits, List.mem_cons, List.not_mem_nil, or_false] at h
      simp only [List.mem_cons, List.not_mem_nil, or_false]
      tauto
    · simp [h]
  · intro hne
    have hlt := formatBytesLoop_lt byteUnits size 1 (by decide) hne
    have hd := formatBytesLoop_dpos byteUnits size 1 one_pos
    have hd' : (0 : ℚ) < ((formatBytesLoop size 1 byteUnits).2.2 : ℚ) := by exact_mod_cast hd
    rw [div_lt_iff₀ hd']
    exact_mod_cast hlt

/-- C5: `is_image` is true exactly when the lower-cased name ends in one of
the six image extensions; `"a.PNG"` is an image, `"a.tiff"` is not. -/
theorem C5_is_image_spec :
    (∀ f : String, is_image f = true ↔
      (strEndsWith (strLower f) ".jpg" = true ∨ strEndsWith (strLower f) ".jpeg" = true ∨
       strEndsWith (strLower f) ".png" = true ∨ strEndsWith (strLower f) ".gif" = true ∨
       strEndsWith (strLower f) ".bmp" = true ∨ strEndsWith (strLower f) ".webp" = true)) ∧
    is_image "a.PNG" = true ∧ is_image "a.tiff" = false := by
  refine ⟨?_, by decide, by decide⟩
  intro f
  simp [is_image, image_extensions]

/-! ## Concrete test fixtures (shared by witnesses and counterexamples) -/

def testRecordPdf : Record := ⟨"bkt", "docs/report.pdf", 2048⟩

def testRecordJpg : Record := ⟨"bkt", "photos/cat.jpg", 512⟩

def testHeadOk : HeadResponse :=
  ⟨some "application/pdf", some "2024-01-01T00:00:00", some "etag-1"⟩

def testEnvOk : Env :=
  ⟨fun _ _ => Except.ok testHeadOk,
   fun _ _ _ => Except.ok (),
   fun _ => Except.ok (640, 480, "JPEG", "RGB"),
   fun _ _ _ _ => Except.ok (),
   "2024-01-02T03:04:05"⟩

def testEnvHeadFail : Env :=
  { testEnvOk with head := fun _ _ => Except.error "404 Not Found" }

def testEnvProbeFail : Env :=
  { testEnvOk with probe := fun _ => Except.error "cannot identify image file" }

def testEnvNoLastModified : Env :=
  { testEnvOk with head := fun _ _ => Except.ok ⟨some "text/plain", none, some "etag-1"⟩ }

def testEnvNoEtag : Env :=
  { testEnvOk with
    head := fun _ _ => Except.ok ⟨some "text/plain", some "2024-01-01T00:00:00", none⟩ }

def emptyStore : Store := fun _ => none

/-- C2: a head-lookup failure yields a 500 response whose body carries the
`error` field, no `put_object` is performed, and storage is unchanged. -/
theorem C2_head_failure (env : Env) (event : Event) (r : Record) (e : String) (s : Store)
    (hr : event.records.head? = some r)
    (hhead : env.head r.bucket r.key = Except.error e) :
    (lambda_handler env event).1.statusCode = 500 ∧
    (lambda_handler env event).1.body =
      dumpObjCompact [("message", J.str "Error processing file"), ("error", J.str e)] ∧
    "error" ∈ [("message", J.str "Error processing file"), ("error", J.str e)].map Prod.fst ∧
    (∀ b k body c, Effect.putObject b k body c ∉ (lambda_handler env event).2) ∧
    applyEffects s (lambda_handler env event).2 = s := by
  simp only [lambda_handler, hr, processRecord, hhead]
  refine ⟨rfl, rfl, by simp, ?_, rfl⟩
  intro b k body c
  simp

/-- Witness for C2 at a concrete environment, event and store. -/
theorem C2_head_failure_witness :
    (Event.mk [testRecordPdf]).records.head? = some testRecordPdf ∧
    testEnvHeadFail.head testRecordPdf.bucket testRecordPdf.key =
      Except.error "404 Not Found" ∧
    ((lambda_handler testEnvHeadFail (Event.mk [testRecordPdf])).1.statusCode = 500 ∧
     (lambda_handler testEnvHeadFail (Event.mk [testRecordPdf])).1.body =
       dumpObjCompact [("message", J.str "Error processing file"),
                       ("error", J.str "404 Not Found")] ∧
     "error" ∈ [("message", J.str "Error processing file"),
                ("error", J.str "404 Not Found")].map Prod.fst ∧
     (∀ b k body c,
       Effect.putObject b k body c ∉ (lambda_handler testEnvHeadFail (Event.mk [testRecordPdf])).2) ∧
     applyEffects emptyStore (lambda_handler testEnvHeadFail (Event.mk [testRecordPdf])).2 =
       emptyStore) :=
  ⟨rfl, rfl, C2_head_failure testEnvHeadFail (Event.mk [testRecordPdf]) testRecordPdf
    "404 Not Found" emptyStore rfl rfl⟩

/-- C8: the handler reads only the first record: two events with the same
first record produce the same result and the same effect trace. -/
theorem C8_first_record_only (env : Env) (e1 e2 : Event)
    (h : e1.records.head? = e2.records.head?) :
    lambda_handler env e1 = lambda_handler env e2 := by
  unfold lambda_handler
  rw [h]

/-- Witness for C8: a second record does not change the outcome. -/
theorem C8_first_record_only_witness :
    (Event.mk [testRecordPdf]).records.head? =
      (Event.mk [testRecordPdf, testRecordJpg]).records.head? ∧
    lambda_handler testEnvOk (Event.mk [testRecordPdf]) =
      lambda_handler testEnvOk (Event.mk [testRecordPdf, testRecordJpg]) :=
  ⟨rfl, C8_first_record_only testEnvOk (Event.mk [testRecordPdf])
    (Event.mk [testRecordPdf, testRecordJpg]) rfl⟩

theorem imageProbeResult_now (env : Env) (t : String) (r : Record) :
    imageProbeResult { env with now := t } r = imageProbeResult env r := rfl

/-- C3: on a non-image key `docs/report.pdf` with successful head lookup and
successful write, the handler returns 200, the metadata record carries none
of the image fields, and the record is written under
`metadata/docs/report_metadata.json`. -/
theorem C3_non_image_report (env : Env) (bucket : String) (size : Nat) (rest : List Record)
    (ct : Option String) (lm et : String)
    (hhead : env.head bucket "docs/report.pdf" = Except.ok ⟨ct, some lm, some et⟩)
    (hput : ∀ b k body c, env.put b k body c = Except.ok ()) :
    (lambda_handler env (Event.mk (Record.mk bucket "docs/report.pdf" size :: rest))).1.statusCode = 200 ∧
    (∀ k ∈ ["imageWidth", "imageHeight", "imageFormat", "imageMode", "imageError"],
      k ∉ (finalMetadata env (Record.mk bucket "docs/report.pdf" size) ct lm et).map Prod.fst) ∧
    (lambda_handler env (Event.mk (Record.mk bucket "docs/report.pdf" size :: rest))).2 =
      [Effect.headReq bucket "docs/report.pdf",
       Effect.putObject bucket "metadata/docs/report_metadata.json"
         (dumpIndent2 (finalMetadata env (Record.mk bucket "docs/report.pdf" size) ct lm et))
         "application/json"] := by
  have himg : is_image "docs/report.pdf" = false := by decide
  have hkey : metadataKey "docs/report.pdf" = "metadata/docs/report_metadata.json" := by decide
  refine ⟨?_, ?_, ?_⟩
  · simp [lambda_handler, processRecord, hhead, hput]
  · intro k hk
    simp only [finalMetadata, himg, if_false, Bool.false_eq_true, List.append_nil, baseMetadata]
    fin_cases hk <;> simp
  · simp [lambda_handler, processRecord, hhead, hput, himg, hkey]

/-- C4: on the image key `photos/cat.jpg` whose body cannot be downloaded or
decoded, the failure is caught in the image sub-step: the handler still
returns 200 and the metadata record carries an `imageError` string and no
`imageWidth`. -/
theorem C4_image_error_degraded (env : Env) (bucket : String) (size : Nat) (rest : List Record)
    (ct : Option String) (lm et e : String)
    (hhead : env.head bucket "photos/cat.jpg" = Except.ok ⟨ct, some lm, some et⟩)
    (hput : ∀ b k body c, env.put b k body c = Except.ok ())
    (hfail : env.download bucket "photos/cat.jpg" "/tmp/cat.jpg" = Except.error e ∨
      (env.download bucket "photos/cat.jpg" "/tmp/cat.jpg" = Except.ok () ∧
       env.probe "/tmp/cat.jpg" = Except.error e)) :
    (lambda_handler env (Event.mk (Record.mk bucket "photos/cat.jpg" size :: rest))).1.statusCode = 200 ∧
    ("imageError", J.str e) ∈ finalMetadata env (Record.mk bucket "photos/cat.jpg" size) ct lm et ∧
    "imageWidth" ∉ (finalMetadata env (Record.mk bucket "photos/cat.jpg" size) ct lm et).map Prod.fst := by
  have himg : is_image "photos/cat.jpg" = true := by decide
  have hpath : "/tmp/" ++ basename "photos/cat.jpg" = "/tmp/cat.jpg" := by decide
  refine ⟨?_, ?_, ?_⟩
  · simp [lambda_handler, processRecord, hhead, hput]
  · simp only [finalMetadata, himg, if_true, imageProbeResult, hpath]
    rcases hfail with hdl | ⟨hdl, hpr⟩
    · simp [hdl, baseMetadata]
    · simp [hdl, hpr, baseMetadata]
  · simp only [finalMetadata, himg, if_true, imageProbeResult, hpath]
    rcases hfail with hdl | ⟨hdl, hpr⟩
    · simp [hdl, baseMetadata]
    · simp [hdl, hpr, baseMetadata]

/-- C6: for an image key, the finished metadata record carries exactly one of
the four image-attribute fields (all of them) or the `imageError` field —
never both, never neither. -/
theorem C6_image_fields_exclusive (env : Env) (r : Record) (ct : Option String) (lm et : String)
    (himg : is_image r.key = true) :
    ((∀ k ∈ imageAttrKeys, k ∈ (finalMetadata env r ct lm et).map Prod.fst) ∧
      "imageError" ∉ (finalMetadata env r ct lm et).map Prod.fst) ∨
    ("imageError" ∈ (finalMetadata env r ct lm et).map Prod.fst ∧
      ∀ k ∈ imageAttrKeys, k ∉ (finalMetadata env r ct lm et).map Prod.fst) := by
  simp only [finalMetadata, himg, if_true, imageProbeResult]
  rcases hdl : env.download r.bucket r.key ("/tmp/" ++ basename r.key) with e | u
  · right
    constructor
    · simp [baseMetadata]
    · intro k hk
      simp only [baseMetadata]
      fin_cases hk <;> simp
  · rcases hpr : env.probe ("/tmp/" ++ basename r.key) with e | q
    · right
      constructor
      · simp [baseMetadata]
      · intro k hk
        simp only [baseMetadata]
        fin_cases hk <;> simp
    · left
      rcases q with ⟨w, h, f, mo⟩
      constructor
      · intro k hk
        simp only [baseMetadata]
        fin_cases hk <;> simp
      · simp [baseMetadata]

/-- C7: two invocations on the same event against an unchanged source object
(identical collaborators, possibly different clock) both persist the metadata
record to the same key, and the two records are identical except for the
`uploadTime` field; when the clocks also agree the records are identical. -/
theorem C7_idempotent_modulo_uploadTime (env : Env) (t2 : String) (event : Event)
    (r : Record) (ct : Option String) (lm et : String)
    (hr : event.records.head? = some r)
    (hhead : env.head r.bucket r.key = Except.ok ⟨ct, some lm, some et⟩)
    (hput : ∀ b k body c, env.put b k body c = Except.ok ()) :
    Effect.putObject r.bucket (metadataKey r.key)
        (dumpIndent2 (finalMetadata env r ct lm et)) "application/json" ∈
      (lambda_handler env event).2 ∧
    Effect.putObject r.bucket (metadataKey r.key)
        (dumpIndent2 (finalMetadata { env with now := t2 } r ct lm et)) "application/json" ∈
      (lambda_handler { env with now := t2 } event).2 ∧
    maskUploadTime (finalMetadata env r ct lm et) =
      maskUploadTime (finalMetadata { env with now := t2 } r ct lm et) ∧
    (env.now = t2 → finalMetadata env r ct lm et = finalMetadata { env with now := t2 } r ct lm et) := by
  refine ⟨?_, ?_, ?_, ?_⟩
  · simp [lambda_handler, hr, processRecord, hhead, hput]
  · simp [lambda_handler, hr, processRecord, hhead, hput]
  · simp [finalMetadata, maskUploadTime, baseMetadata, imageProbeResult_now]
  · intro h
    have henv : ({ env with now := t2 } : Env) = env := by
      cases env
      simp_all
    rw [henv]

/-- C9: a head response without a content type yields `contentType`
`"unknown"` on a successful run, while a missing `LastModified` or `ETag` is
fatal: the handler answers 500 and writes nothing. -/
theorem C9_head_field_defaults (env1 env2 env3 : Env) (event : Event) (r : Record)
    (lm et lm3 : String) (ct2 ct3 : Option String) (et2 : Option String)
    (hr : event.records.head? = some r)
    (hhead1 : env1.head r.bucket r.key = Except.ok ⟨none, some lm, some et⟩)
    (hput1 : ∀ b k body c, env1.put b k body c = Except.ok ())
    (hhead2 : env2.head r.bucket r.key = Except.ok ⟨ct2, none, et2⟩)
    (hhead3 : env3.head r.bucket r.key = Except.ok ⟨ct3, some lm3, none⟩) :
    ((lambda_handler env1 event).1.statusCode = 200 ∧
     ("contentType", J.str "unknown") ∈ finalMetadata env1 r none lm et) ∧
    ((lambda_handler env2 event).1.statusCode = 500 ∧
     ∀ b k body c, Effect.putObject b k body c ∉ (lambda_handler env2 event).2) ∧
    ((lambda_handler env3 event).1.statusCode = 500 ∧
     ∀ b k body c, Effect.putObject b k body c ∉ (lambda_handler env3 event).2) := by
  refine ⟨⟨?_, ?_⟩, ⟨?_, ?_⟩, ⟨?_, ?_⟩⟩
  · simp [lambda_handler, hr, processRecord, hhead1, hput1]
  · simp [finalMetadata, baseMetadata]
  · simp [lambda_handler, hr, processRecord, hhead2, errorResult]
  · intro b k body c
    simp [lambda_handler, hr, processRecord, hhead2]
  · simp [lambda_handler, hr, processRecord, hhead3, errorResult]
  · intro b k body c
    simp [lambda_handler, hr, processRecord, hhead3]

/-- C10 counterexample: when the head lookup fails, an invocation on a
non-image key performs no put write at all, so it is not the case that every
such invocation performs exactly one put write. -/
theorem C10_frame_counterexample :
    is_image testRecordPdf.key = false ∧
    ¬ List.countP isPutEffect
        (lambda_handler testEnvHeadFail (Event.mk [testRecordPdf])).2 = 1 := by
  decide

/-- C10 (amended): an invocation on a non-image first record never downloads
the object and never creates or removes a scratch file; when the head lookup
succeeds with its fields present and the write succeeds, its storage side
effects are exactly one head read of the triggering key followed by exactly
one put write of the derived metadata key. -/
theorem C10_frame_non_image (env : Env) (event : Event) (r : Record)
    (hr : event.records.head? = some r) (himg : is_image r.key = false) :
    (∀ eff ∈ (lambda_handler env event).2,
      isDownloadEffect eff = false ∧ isRemoveEffect eff = false) ∧
    (∀ ct lm et, env.head r.bucket r.key = Except.ok ⟨ct, some lm, some et⟩ →
      (∀ b k body c, env.put b k body c = Except.ok ()) →
      (lambda_handler env event).2 =
        [Effect.headReq r.bucket r.key,
         Effect.putObject r.bucket (metadataKey r.key)
           (dumpIndent2 (finalMetadata env r ct lm et)) "application/json"]) := by
  constructor
  · intro eff heff
    rcases hh : env.head r.bucket r.key with e | resp
    · simp [lambda_handler, hr, processRecord, hh] at heff
      simp [heff, isDownloadEffect, isRemoveEffect]
    · rcases resp with ⟨hct, hlm, hetag⟩
      rcases hlm with _ | lm
      · simp [lambda_handler, hr, processRecord, hh] at heff
        simp [heff, isDownloadEffect, isRemoveEffect]
      · rcases hetag with _ | et
        · simp [lambda_handler, hr, processRecord, hh] at heff
          simp [heff, isDownloadEffect, isRemoveEffect]
        · rcases hp : env.put r.bucket (metadataKey r.key)
              (dumpIndent2 (finalMetadata env r hct lm et)) "application/json" with e | u
          · simp [lambda_handler, hr, processRecord, hh, hp, himg] at heff
            simp [heff, isDownloadEffect, isRemoveEffect]
          · simp [lambda_handler, hr, processRecord, hh, hp, himg] at heff
            rcases heff with heff | heff <;>
              simp [heff, isDownloadEffect, isRemoveEffect]
  · intro ct lm et hh hput
    simp [lambda_handler, hr, processRecord, hh, hput, himg]

def testEnvNoContentType : Env :=
  { testEnvOk with
    head := fun _ _ => Except.ok ⟨none, some "2024-01-01T00:00:00", some "etag-1"⟩ }

/-- Witness for C3 at a concrete environment and event. -/
theorem C3_non_image_report_witness :
    testEnvOk.head "bkt" "docs/report.pdf" =
      Except.ok ⟨some "application/pdf", some "2024-01-01T00:00:00", some "etag-1"⟩ ∧
    (∀ b k body c, testEnvOk.put b k body c = Except.ok ()) ∧
    ((lambda_handler testEnvOk
        (Event.mk (Record.mk "bkt" "docs/report.pdf" 2048 :: []))).1.statusCode = 200 ∧
     (∀ k ∈ ["imageWidth", "imageHeight", "imageFormat", "imageMode", "imageError"],
       k ∉ (finalMetadata testEnvOk (Record.mk "bkt" "docs/report.pdf" 2048)
              (some "application/pdf") "2024-01-01T00:00:00" "etag-1").map Prod.fst) ∧
     (lambda_handler testEnvOk
        (Event.mk (Record.mk "bkt" "docs/report.pdf" 2048 :: []))).2 =
       [Effect.headReq "bkt" "docs/report.pdf",
        Effect.putObject "bkt" "metadata/docs/report_metadata.json"
          (dumpIndent2 (finalMetadata testEnvOk (Record.mk "bkt" "docs/report.pdf" 2048)
             (some "application/pdf") "2024-01-01T00:00:00" "etag-1"))
          "application/json"]) :=
  ⟨rfl, fun _ _ _ _ => rfl,
   C3_non_image_report testEnvOk "bkt" 2048 [] (some "application/pdf")
     "2024-01-01T00:00:00" "etag-1" rfl (fun _ _ _ _ => rfl)⟩

/-- Witness for C4: a decoding failure on `photos/cat.jpg`. -/
theorem C4_image_error_degraded_witness :
    testEnvProbeFail.head "bkt" "photos/cat.jpg" =
      Except.ok ⟨some "application/pdf", some "2024-01-01T00:00:00", some "etag-1"⟩ ∧
    testEnvProbeFail.download "bkt" "photos/cat.jpg" "/tmp/cat.jpg" = Except.ok () ∧
    testEnvProbeFail.probe "/tmp/cat.jpg" = Except.error "cannot identify image file" ∧
    ((lambda_handler testEnvProbeFail
        (Event.mk (Record.mk "bkt" "photos/cat.jpg" 512 :: []))).1.statusCode = 200 ∧
     ("imageError", J.str "cannot identify image file") ∈
       finalMetadata testEnvProbeFail (Record.mk "bkt" "photos/cat.jpg" 512)
         (some "application/pdf") "2024-01-01T00:00:00" "etag-1" ∧
     "imageWidth" ∉ (finalMetadata testEnvProbeFail (Record.mk "bkt" "photos/cat.jpg" 512)
         (some "application/pdf") "2024-01-01T00:00:00" "etag-1").map Prod.fst) :=
  ⟨rfl, rfl, rfl,
   C4_image_error_degraded testEnvProbeFail "bkt" 512 [] (some "application/pdf")
     "2024-01-01T00:00:00" "etag-1" "cannot identify image file" rfl
     (fun _ _ _ _ => rfl) (Or.inr ⟨rfl, rfl⟩)⟩

/-- Witness for C6 at a concrete image record and environment. -/
theorem C6_image_fields_exclusive_witness :
    is_image testRecordJpg.key = true ∧
    (((∀ k ∈ imageAttrKeys,
        k ∈ (finalMetadata testEnvOk testRecordJpg (some "image/jpeg")
               "2024-01-01T00:00:00" "etag-1").map Prod.fst) ∧
      "imageError" ∉ (finalMetadata testEnvOk testRecordJpg (some "image/jpeg")
               "2024-01-01T00:00:00" "etag-1").map Prod.fst) ∨
     ("imageError" ∈ (finalMetadata testEnvOk testRecordJpg (some "image/jpeg")
               "2024-01-01T00:00:00" "etag-1").map Prod.fst ∧
      ∀ k ∈ imageAttrKeys,
        k ∉ (finalMetadata testEnvOk testRecordJpg (some "image/jpeg")
               "2024-01-01T00:00:00" "etag-1").map Prod.fst)) :=
  ⟨by decide,
   C6_image_fields_exclusive testEnvOk testRecordJpg (some "image/jpeg")
     "2024-01-01T00:00:00" "etag-1" (by decide)⟩

/-- Witness for C7 on concrete invocations whose clocks differ. -/
theorem C7_idempotent_modulo_uploadTime_witness :
    (Event.mk [testRecordPdf]).records.head? = some testRecordPdf ∧
    testEnvOk.head testRecordPdf.bucket testRecordPdf.key =
      Except.ok ⟨some "application/pdf", some "2024-01-01T00:00:00", some "etag-1"⟩ ∧
    (∀ b k body c, testEnvOk.put b k body c = Except.ok ()) ∧
    (Effect.putObject testRecordPdf.bucket (metadataKey testRecordPdf.key)
        (dumpIndent2 (finalMetadata testEnvOk testRecordPdf (some "application/pdf")
           "2024-01-01T00:00:00" "etag-1")) "application/json" ∈
      (lambda_handler testEnvOk (Event.mk [testRecordPdf])).2 ∧
     Effect.putObject testRecordPdf.bucket (metadataKey testRecordPdf.key)
        (dumpIndent2 (finalMetadata { testEnvOk with now := "2025-05-05T05:05:05" }
           testRecordPdf (some "application/pdf") "2024-01-01T00:00:00" "etag-1"))
        "application/json" ∈
      (lambda_handler { testEnvOk with now := "2025-05-05T05:05:05" }
         (Event.mk [testRecordPdf])).2 ∧
     maskUploadTime (finalMetadata testEnvOk testRecordPdf (some "application/pdf")
        "2024-01-01T00:00:00" "etag-1") =
       maskUploadTime (finalMetadata { testEnvOk with now := "2025-05-05T05:05:05" }
          testRecordPdf (some "application/pdf") "2024-01-01T00:00:00" "etag-1") ∧
     (testEnvOk.now = "2025-05-05T05:05:05" →
       finalMetadata testEnvOk testRecordPdf (some "application/pdf")
           "2024-01-01T00:00:00" "etag-1" =
         finalMetadata { testEnvOk with now := "2025-05-05T05:05:05" }
           testRecordPdf (some "application/pdf") "2024-01-01T00:00:00" "etag-1")) :=
  ⟨rfl, rfl, fun _ _ _ _ => rfl,
   C7_idempotent_modulo_uploadTime testEnvOk "2025-05-05T05:05:05"
     (Event.mk [testRecordPdf]) testRecordPdf (some "application/pdf")
     "2024-01-01T00:00:00" "etag-1" rfl rfl (fun _ _ _ _ => rfl)⟩

/-- Witness for C9 across the three head-response shapes. -/
theorem C9_head_field_defaults_witness :
    (Event.mk [testRecordPdf]).records.head? = some testRecordPdf ∧
    testEnvNoContentType.head testRecordPdf.bucket testRecordPdf.key =
      Except.ok ⟨none, some "2024-01-01T00:00:00", some "etag-1"⟩ ∧
    (∀ b k body c, testEnvNoContentType.put b k body c = Except.ok ()) ∧
    testEnvNoLastModified.head testRecordPdf.bucket testRecordPdf.key =
      Except.ok ⟨some "text/plain", none, some "etag-1"⟩ ∧
    testEnvNoEtag.head testRecordPdf.bucket testRecordPdf.key =
      Except.ok ⟨some "text/plain", some "2024-01-01T00:00:00", none⟩ ∧
    (((lambda_handler testEnvNoContentType (Event.mk [testRecordPdf])).1.statusCode = 200 ∧
      ("contentType", J.str "unknown") ∈ finalMetadata testEnvNoContentType testRecordPdf
          none "2024-01-01T00:00:00" "etag-1") ∧
     ((lambda_handler testEnvNoLastModified (Event.mk [testRecordPdf])).1.statusCode = 500 ∧
      ∀ b k body c, Effect.putObject b k body c ∉
        (lambda_handler testEnvNoLastModified (Event.mk [testRecordPdf])).2) ∧
     ((lambda_handler testEnvNoEtag (Event.mk [testRecordPdf])).1.statusCode = 500 ∧
      ∀ b k body c, Effect.putObject b k body c ∉
        (lambda_handler testEnvNoEtag (Event.mk [testRecordPdf])).2)) :=
  ⟨rfl, rfl, fun _ _ _ _ => rfl, rfl, rfl,
   C9_head_field_defaults testEnvNoContentType testEnvNoLastModified testEnvNoEtag
     (Event.mk [testRecordPdf]) testRecordPdf "2024-01-01T00:00:00" "etag-1"
     "2024-01-01T00:00:00" (some "text/plain") (some "text/plain") (some "etag-1")
     rfl rfl (fun _ _ _ _ => rfl) rfl rfl⟩

/-- Witness for the amended C10 at a concrete non-image invocation. -/
theorem C10_frame_non_image_witness :
    (Event.mk [testRecordPdf]).records.head? = some testRecordPdf ∧
    is_image testRecordPdf.key = false ∧
    ((∀ eff ∈ (lambda_handler testEnvOk (Event.mk [testRecordPdf])).2,
       isDownloadEffect eff = false ∧ isRemoveEffect eff = false) ∧
     (∀ ct lm et,
       testEnvOk.head testRecordPdf.bucket testRecordPdf.key =
         Except.ok ⟨ct, some lm, some et⟩ →
       (∀ b k body c, testEnvOk.put b k body c = Except.ok ()) →
       (lambda_handler testEnvOk (Event.mk [testRecordPdf])).2 =
         [Effect.headReq testRecordPdf.bucket testRecordPdf.key,
          Effect.putObject testRecordPdf.bucket (metadataKey testRecordPdf.key)
            (dumpIndent2 (finalMetadata testEnvOk testRecordPdf ct lm et))
            "application/json"])) :=
  ⟨rfl, by decide,
   C10_frame_non_image testEnvOk (Event.mk [testRecordPdf]) testRecordPdf rfl (by decide)⟩
